import Mathlib

/-! Backup storage service of vald: a shallow embedding.

The development embeds two Go source files:

* `pkg/rebalancer/storage/job/service/storage/storage.go` : the service `bs`
  with its constructor `New`, the two initialisation steps `initCompressor`
  and `initBucket`, and the operations `Reader`, `Delete` and `Backup`;
* `internal/config/backup.go` : `BackupManager.Bind`.

Conventions of the embedding.

* A Go call returning `(v, err)` is a value of `Except Error α`: either
  `ok v` (with `err == nil`) or `error err` (with `v` the zero value). A Go
  call returning only `error` is a value of `Option Error` (`none` is `nil`).
* The remote storage is an explicit state `σ`. Every method of a
  collaborator (bucket, deleter, copier, compressor, codec constructors,
  session) is a function `σ → result × σ`.
* Every collaborator method invoked by the service goes through `invoke`,
  which also appends one `Call` to a log, so that "which calls were issued,
  and in which order" is observable.
* `context.Context` arguments are dropped: cancellation is not modelled.
* A method call on a nil interface panics in Go; the operations return
  `none` in that case.
-/

namespace Vald

/-! ## Errors -/

/-- The `error` values that occur. The first three are the constructors of the
`errors` package used by `storage.go`; `collaborator` stands for any other
error value, for instance one made by the storage backend or by a codec. -/
inductive Error where
  | ErrOptionFailed (err : Error) (ref : String)
  | ErrCompressorNameNotFound (name : String)
  | ErrInvalidStorageType
  | collaborator (msg : String)
  deriving DecidableEq, Repr

/-! ## Decimal rendering -/

/-- Go's `strconv.FormatInt(i, base)`: the digits of the absolute value, most
significant first, with a leading minus sign for a negative number. -/
def FormatInt (i : Int) (base : Nat) : String :=
  if i < 0 then String.mk ('-' :: Nat.toDigits base i.natAbs)
  else String.mk (Nat.toDigits base i.toNat)

/-! ## Collaborator interfaces (`blob.Bucket`, `compress.Compressor`) -/

/-- The capability returned by `Bucket.Deleter`. -/
structure Deleter (σ : Type) where
  Delete : String → σ → Option Error × σ

/-- The capability returned by `Bucket.Copier`. -/
structure Copier (σ : Type) where
  Copy : String → String → σ → Option Error × σ

/-- The interface `blob.Bucket`, as far as `storage.go` uses it; `ρ` is the type
of streams (`io.ReadCloser`). -/
structure Bucket (σ ρ : Type) where
  Reader : String → σ → Except Error ρ × σ
  Deleter : σ → Except Error (Deleter σ) × σ
  Copier : σ → Except Error (Copier σ) × σ

/-- The interface `compress.Compressor`, as far as `storage.go` uses it. -/
structure Compressor (σ ρ : Type) where
  Reader : ρ → σ → Except Error ρ × σ

/-! ## The call log -/

/-- One invocation of a collaborator. -/
inductive Call where
  | bucketReader (key : String)
  | bucketDeleter
  | bucketCopier
  | deleterDelete (key : String)
  | copierCopy (src dst : String)
  | compressorReader
  | newGob
  | newGzip (level : Int)
  | newLZ4 (level : Int)
  | newZstd (level : Int)
  | sessionNew
  | s3New
  deriving DecidableEq, Repr

/-- The state of the outside, with the log of the calls issued so far. -/
structure World (σ : Type) where
  st : σ
  log : List Call

/-- Run the collaborator method `f` and record the call `c`. -/
def invoke {σ α : Type} (c : Call) (f : σ → α × σ) (w : World σ) : α × World σ :=
  ((f w.st).1, { st := (f w.st).2, log := w.log ++ [c] })

/-! ## Declarations of the `config`, `session` and `s3` packages -/

/-- Modelled from the spec: the closed enumeration of compression algorithms of
the `config` package (its declaration is not among the sources). It is an
integer type there; any value other than the four constants is an unrecognised
algorithm. -/
abbrev compressAlgorithm := Nat

/-- Modelled from the spec: the constant `config.GOB`. -/
def GOB : compressAlgorithm := 1
/-- Modelled from the spec: the constant `config.GZIP`. -/
def GZIP : compressAlgorithm := 2
/-- Modelled from the spec: the constant `config.LZ4`. -/
def LZ4 : compressAlgorithm := 3
/-- Modelled from the spec: the constant `config.ZSTD`. -/
def ZSTD : compressAlgorithm := 4

/-- Modelled from the spec: the closed enumeration of storage backends of the
`config` package (its declaration is not among the sources); any value other
than `S3` is an unrecognised backend. -/
abbrev BlobStorageType := Nat

/-- Modelled from the spec: the constant `config.S3`, the only backend. -/
def S3 : BlobStorageType := 1

/-- Modelled from the spec: a session of the storage backend, the result of
`session.New(...).Session()` (the `session` package is not among the sources). -/
structure Session where
  id : Nat
  deriving DecidableEq, Repr

/-- Modelled from the spec: an option of `session.New` (type `session.Option`,
not among the sources), identified by a label. -/
structure SessionOption where
  label : String
  deriving DecidableEq, Repr

/-- Modelled from the spec: an option of `s3.New` (type `s3.Option`, not among
the sources). `initBucket` builds three of them itself; `custom` is one
supplied through the field `s3Opts`. -/
inductive S3Option where
  | custom (label : String)
  | WithErrGroup (eg : Option String)
  | WithSession (s : Session)
  | WithBucket (name : String)
  deriving DecidableEq, Repr

/-! ## The service -/

/-- The struct `bs`. -/
structure bs (σ ρ : Type) where
  eg : Option String
  storageType : String
  bucketName : String
  filename : String
  suffix : String
  s3Opts : List S3Option
  s3SessionOpts : List SessionOption
  compressAlgorithm : String
  compressionLevel : Int
  bucket : Option (Bucket σ ρ)
  compressor : Option (Compressor σ ρ)

/-- The value of `new(bs)`: every field is the zero value of its type. -/
def bs.zero (σ ρ : Type) : bs σ ρ :=
  { eg := none, storageType := "", bucketName := "", filename := "", suffix := ""
    s3Opts := [], s3SessionOpts := [], compressAlgorithm := "", compressionLevel := 0
    bucket := none, compressor := none }

/-- The type `Option` of the package, `func(*bs) error`: `apply` returns the
error and the struct as the function left it; `ref` stands for
`reflect.ValueOf(opt)`, which identifies the function in `ErrOptionFailed`. -/
structure OptionFn (σ ρ : Type) where
  ref : String
  apply : bs σ ρ → Option Error × bs σ ρ

/-- What `storage.go` takes from the packages that are not among the sources:
the package-level list `defaultOptions`, the conversions
`config.CompressAlgorithm` and `config.AtoBST`, the four codec constructors
(the three with a level receive it through their `With...CompressionLevel`
option), `session.New(opts...).Session()` and `s3.New(opts...)`. -/
structure Env (σ ρ : Type) where
  defaultOptions : List (OptionFn σ ρ)
  CompressAlgorithm : String → compressAlgorithm
  AtoBST : String → BlobStorageType
  NewGob : σ → Except Error (Compressor σ ρ) × σ
  NewGzip : Int → σ → Except Error (Compressor σ ρ) × σ
  NewLZ4 : Int → σ → Except Error (Compressor σ ρ) × σ
  NewZstd : Int → σ → Except Error (Compressor σ ρ) × σ
  sessionNew : List SessionOption → σ → Except Error Session × σ
  s3New : List S3Option → σ → Except Error (Bucket σ ρ) × σ

/-- The method `Backup`; `now` is the value of `time.Now().UnixNano()` read by
this call. -/
def bs.Backup {σ ρ : Type} (b : bs σ ρ) (now : Int) (w : World σ) :
    Option (Option Error × World σ) :=
  match b.bucket with
  | none => none
  | some bucket =>
    match invoke Call.bucketCopier bucket.Copier w with
    | (Except.error err, w1) => some (some err, w1)
    | (Except.ok c, w1) =>
      let dst := b.filename ++ "_" ++ FormatInt now 10 ++ b.suffix
      some (invoke (Call.copierCopy (b.filename ++ b.suffix) dst)
        (c.Copy (b.filename ++ b.suffix) dst) w1)

/-- The method `Delete`. -/
def bs.Delete {σ ρ : Type} (b : bs σ ρ) (w : World σ) :
    Option (Option Error × World σ) :=
  match b.bucket with
  | none => none
  | some bucket =>
    match invoke Call.bucketDeleter bucket.Deleter w with
    | (Except.error err, w1) => some (some err, w1)
    | (Except.ok d, w1) =>
      some (invoke (Call.deleterDelete (b.filename ++ b.suffix))
        (d.Delete (b.filename ++ b.suffix)) w1)

/-- The method `Reader`. -/
def bs.Reader {σ ρ : Type} (b : bs σ ρ) (w : World σ) :
    Option (Except Error ρ × World σ) :=
  match b.bucket with
  | none => none
  | some bucket =>
    match invoke (Call.bucketReader (b.filename ++ b.suffix))
        (bucket.Reader (b.filename ++ b.suffix)) w with
    | (Except.error err, w1) => some (Except.error err, w1)
    | (Except.ok r, w1) =>
      match b.compressor with
      | some compressor =>
        match invoke Call.compressorReader (compressor.Reader r) w1 with
        | (Except.error err, w2) => some (Except.error err, w2)
        | (Except.ok r2, w2) => some (Except.ok r2, w2)
      | none => some (Except.ok r, w1)

/-- The assignment `b.compressor, err = compress.New...(...)` followed by
`return err`: the field receives the constructed codec, or the zero value when
the constructor fails. -/
def bs.assignCompressor {σ ρ : Type} (b : bs σ ρ)
    (r : Except Error (Compressor σ ρ) × World σ) : Option Error × bs σ ρ × World σ :=
  match r with
  | (Except.error err, w1) => (some err, { b with compressor := none }, w1)
  | (Except.ok c, w1) => (none, { b with compressor := some c }, w1)

/-- The method `initCompressor`. The `switch` of the source takes the first
case that matches, which is what the chain of conditionals does. -/
def bs.initCompressor {σ ρ : Type} (env : Env σ ρ) (b : bs σ ρ) (w : World σ) :
    Option Error × bs σ ρ × World σ :=
  if b.compressAlgorithm = "" then (none, b, w)
  else if env.CompressAlgorithm b.compressAlgorithm = GOB then
    b.assignCompressor (invoke Call.newGob env.NewGob w)
  else if env.CompressAlgorithm b.compressAlgorithm = GZIP then
    b.assignCompressor (invoke (Call.newGzip b.compressionLevel) (env.NewGzip b.compressionLevel) w)
  else if env.CompressAlgorithm b.compressAlgorithm = LZ4 then
    b.assignCompressor (invoke (Call.newLZ4 b.compressionLevel) (env.NewLZ4 b.compressionLevel) w)
  else if env.CompressAlgorithm b.compressAlgorithm = ZSTD then
    b.assignCompressor (invoke (Call.newZstd b.compressionLevel) (env.NewZstd b.compressionLevel) w)
  else (some (Error.ErrCompressorNameNotFound b.compressAlgorithm), b, w)

/-- The method `initBucket`. -/
def bs.initBucket {σ ρ : Type} (env : Env σ ρ) (b : bs σ ρ) (w : World σ) :
    Option Error × bs σ ρ × World σ :=
  if env.AtoBST b.storageType = S3 then
    match invoke Call.sessionNew (env.sessionNew b.s3SessionOpts) w with
    | (Except.error err, w1) => (some err, b, w1)
    | (Except.ok s, w1) =>
      match invoke Call.s3New
          (env.s3New (b.s3Opts ++ [S3Option.WithErrGroup b.eg, S3Option.WithSession s,
            S3Option.WithBucket b.bucketName])) w1 with
      | (Except.error err, w2) => (some err, { b with bucket := none }, w2)
      | (Except.ok bucket, w2) => (none, { b with bucket := some bucket }, w2)
  else (some Error.ErrInvalidStorageType, b, w)

/-- The loop of `New` over the options: each is applied to the struct as the
previous ones left it; the first that returns an error ends the loop with
`errors.ErrOptionFailed(err, reflect.ValueOf(opt))`. -/
def applyOptions {σ ρ : Type} : List (OptionFn σ ρ) → bs σ ρ → Except Error (bs σ ρ)
  | [], b => Except.ok b
  | opt :: rest, b =>
    match opt.apply b with
    | (some err, _) => Except.error (Error.ErrOptionFailed err opt.ref)
    | (none, b1) => applyOptions rest b1

/-- The constructor `New`: the result is `(nil, err)` or `(b, nil)`. -/
def New {σ ρ : Type} (env : Env σ ρ) (opts : List (OptionFn σ ρ)) (w : World σ) :
    Except Error (bs σ ρ) × World σ :=
  match applyOptions (env.defaultOptions ++ opts) (bs.zero σ ρ) with
  | Except.error err => (Except.error err, w)
  | Except.ok b =>
    match b.initCompressor env w with
    | (some err, _, w1) => (Except.error err, w1)
    | (none, b1, w1) =>
      match b1.initBucket env w1 with
      | (some err, _, w2) => (Except.error err, w2)
      | (none, b2, w2) => (Except.ok b2, w2)

/-! ## A bucket in memory -/

/-- A byte string. -/
abbrev Bytes := List (Fin 256)

/-- Modelled from the spec: the content of a bucket that is a map from keys to
byte strings, as a list of entries (the first entry of a key is its object). -/
abbrev Store := List (String × Bytes)

/-- Modelled from the spec: the not-found error of the bucket, for a key
without object. -/
def errNotFound : Error := Error.collaborator "not found"

/-- Modelled from the spec: the object under `key`, if there is one. -/
def Store.get (m : Store) (key : String) : Option Bytes :=
  List.lookup key m

/-- Modelled from the spec: the store without the object under `key`. -/
def Store.remove (m : Store) (key : String) : Store :=
  m.filter (fun e => e.1 != key)

/-- Modelled from the spec: the store with `x` as the object under `key`. -/
def Store.put (m : Store) (key : String) (x : Bytes) : Store :=
  (key, x) :: m.remove key

/-- Modelled from the spec: the copy capability of a bucket that is a map from
keys to byte strings. `Copy` duplicates the source bytes under the destination
key and fails if the source is absent. -/
def memCopier : Copier Store :=
  { Copy := fun src dst m1 =>
      match m1.get src with
      | some x => (none, m1.put dst x)
      | none => (some errNotFound, m1) }

/-- Modelled from the spec: the delete capability of a bucket that is a map
from keys to byte strings. `Delete` removes the key. -/
def memDeleter : Deleter Store :=
  { Delete := fun key m1 => (none, m1.remove key) }

/-- Modelled from the spec: a bucket that is a map from keys to byte strings.
`Reader` fails with not-found on an absent key and yields the bytes otherwise;
both capabilities are always granted. A stream is the byte string it yields. -/
def memBucket : Bucket Store Bytes where
  Reader := fun key m =>
    match m.get key with
    | some x => (Except.ok x, m)
    | none => (Except.error errNotFound, m)
  Deleter := fun m => (Except.ok memDeleter, m)
  Copier := fun m => (Except.ok memCopier, m)

/-! ## `BackupManager` -/

/-- Modelled from the spec: the client configuration `GRPCClient` of the
`config` package (its declaration is not among the sources): the field `Addrs`
and, in `rest`, the fields that `BackupManager.Bind` does not touch. -/
structure GRPCClient (γ : Type) where
  Addrs : List String
  rest : γ

/-- The struct `BackupManager`; `Client` is a pointer and may be nil. -/
structure BackupManager (γ : Type) where
  Host : String
  Port : Int
  Client : Option (GRPCClient γ)

/-- What `backup.go` takes from the rest of the `config` package:
`GetActualValue`, the method `GRPCClient.Bind` (which returns its receiver,
never nil) and `newGRPCClientConfig`. -/
structure ConfigEnv (γ : Type) where
  GetActualValue : String → String
  clientBind : GRPCClient γ → GRPCClient γ
  newGRPCClientConfig : GRPCClient γ

/-- Go's `fmt.Sprintf("%s:%d", host, port)`. -/
def sprintfHostPort (host : String) (port : Int) : String :=
  host ++ ":" ++ FormatInt port 10

/-- The method `BackupManager.Bind`. It updates the receiver and returns it;
`len(b.Host) != 0` holds exactly when the string has a character. -/
def BackupManager.Bind {γ : Type} (cfg : ConfigEnv γ) (b : BackupManager γ) :
    BackupManager γ :=
  let host := cfg.GetActualValue b.Host
  let client :=
    match b.Client with
    | some c => cfg.clientBind c
    | none => cfg.newGRPCClientConfig
  if host.length ≠ 0 then
    { Host := host, Port := b.Port,
      Client := some { client with Addrs := client.Addrs ++ [sprintfHostPort host b.Port] } }
  else
    { Host := host, Port := b.Port, Client := some client }

/-! ## Auxiliary definitions -/

/-- The calls that construct a codec. -/
def Call.isCodec : Call → Bool
  | Call.newGob => true
  | Call.newGzip _ => true
  | Call.newLZ4 _ => true
  | Call.newZstd _ => true
  | _ => false

/-- No codec constructor of the environment returns the error
`ErrCompressorNameNotFound`. -/
def Env.codecsKeepName {σ ρ : Type} (env : Env σ ρ) : Prop :=
  ∀ (name : String) (level : Int) (st : σ),
    (env.NewGob st).1 ≠ Except.error (Error.ErrCompressorNameNotFound name) ∧
    (env.NewGzip level st).1 ≠ Except.error (Error.ErrCompressorNameNotFound name) ∧
    (env.NewLZ4 level st).1 ≠ Except.error (Error.ErrCompressorNameNotFound name) ∧
    (env.NewZstd level st).1 ≠ Except.error (Error.ErrCompressorNameNotFound name)

/-- The value of a decimal digit character. -/
def digitVal (c : Char) : Nat := c.toNat - 48

/-- The number that a list of decimal digits, most significant first,
denotes. -/
def decVal (l : List Char) : Nat := l.foldl (fun a c => 10 * a + digitVal c) 0

/-- The client configuration that `Bind` starts from: the bound existing one,
or a fresh default when the field is nil. -/
def BackupManager.boundClient {γ : Type} (cfg : ConfigEnv γ) (b : BackupManager γ) :
    GRPCClient γ :=
  match b.Client with
  | some c => cfg.clientBind c
  | none => cfg.newGRPCClientConfig

/-! ## Concrete inputs -/

/-- A service over the bucket in memory, with the given names and without
compression. -/
def memService (filename suffix : String) : bs Store Bytes :=
  { bs.zero Store Bytes with
    filename := filename, suffix := suffix, bucket := some memBucket }

/-- A configuration environment: `GetActualValue` strips nothing and resolves
the name `$HOST` to `vald.local`, binding a client keeps it, and the default
client has no address. -/
def demoConfig : ConfigEnv Unit :=
  { GetActualValue := fun v => if v = "$HOST" then "vald.local" else v
    clientBind := fun c => c
    newGRPCClientConfig := { Addrs := [], rest := () } }

/-- A world whose bucket holds `x` under `index.snap`, with an empty log. -/
def memWorld (x : Bytes) : World Store :=
  { st := [("index.snap", x)], log := [] }

/-- A codec over byte strings: its `Reader` takes the first byte as a header
and yields the rest; it fails on a stream without header. -/
def memCompressor : Compressor Store Bytes :=
  { Reader := fun r m =>
      match r with
      | [] => (Except.error (Error.collaborator "no header"), m)
      | _ :: rest => (Except.ok rest, m) }

/-- An environment over the bucket in memory: no default options, the
identifiers `gob`, `gzip`, `lz4`, `zstd` and `s3` are the recognised ones,
every codec constructor accepts the levels from 0 and returns `memCompressor`,
the session is granted and `s3.New` returns `memBucket`. -/
def memEnv : Env Store Bytes :=
  { defaultOptions := []
    CompressAlgorithm := fun a =>
      if a = "gob" then GOB else if a = "gzip" then GZIP
      else if a = "lz4" then LZ4 else if a = "zstd" then ZSTD else 0
    AtoBST := fun t => if t = "s3" then S3 else 0
    NewGob := fun m => (Except.ok memCompressor, m)
    NewGzip := fun level m =>
      if level < 0 then (Except.error (Error.collaborator "invalid level"), m)
      else (Except.ok memCompressor, m)
    NewLZ4 := fun level m =>
      if level < 0 then (Except.error (Error.collaborator "invalid level"), m)
      else (Except.ok memCompressor, m)
    NewZstd := fun level m =>
      if level < 0 then (Except.error (Error.collaborator "invalid level"), m)
      else (Except.ok memCompressor, m)
    sessionNew := fun _ m => (Except.ok { id := 0 }, m)
    s3New := fun _ m => (Except.ok memBucket, m) }

/-- An option that sets the storage type. -/
def withStorageType (t : String) : OptionFn Store Bytes :=
  { ref := "WithStorageType", apply := fun b => (none, { b with storageType := t }) }

/-- An option that sets the compression algorithm. -/
def withCompressAlgorithm (a : String) : OptionFn Store Bytes :=
  { ref := "WithCompressAlgorithm", apply := fun b => (none, { b with compressAlgorithm := a }) }

/-! ## Lemmas on the decimal rendering, the keys and the bucket in memory -/

/-- Reading back a decimal digit. -/
lemma digitVal_digitChar (d : Nat) (h : d < 10) : digitVal (Nat.digitChar d) = d := by
  interval_cases d <;> rfl

/-- A decimal digit is not the minus sign. -/
lemma digitChar_ne_minus (d : Nat) (h : d < 10) : Nat.digitChar d ≠ '-' := by
  interval_cases d <;> decide

/-- The accumulator of `Nat.toDigitsCore` is a suffix of its result. -/
lemma toDigitsCore_append (b f n : Nat) (acc : List Char) :
    Nat.toDigitsCore b f n acc = Nat.toDigitsCore b f n [] ++ acc := by
  induction f generalizing n acc with
  | zero => simp [Nat.toDigitsCore]
  | succ f ih =>
    simp only [Nat.toDigitsCore]
    split_ifs
    · simp
    · rw [ih (n / b) (Nat.digitChar (n % b) :: acc), ih (n / b) [Nat.digitChar (n % b)]]
      simp

/-- The value of a digit list with one more digit at the end. -/
lemma decVal_snoc (l : List Char) (c : Char) : decVal (l ++ [c]) = 10 * decVal l + digitVal c := by
  simp [decVal, List.foldl_append]

/-- With enough fuel the digits of `n` denote `n`. -/
lemma decVal_toDigitsCore (f n : Nat) (h : n < f) : decVal (Nat.toDigitsCore 10 f n []) = n := by
  induction f generalizing n with
  | zero => omega
  | succ f ih =>
    simp only [Nat.toDigitsCore]
    split_ifs with h0
    · have hn : n % 10 = n := by omega
      have hd := digitVal_digitChar (n % 10) (Nat.mod_lt _ (by norm_num))
      rw [hn] at hd ⊢
      simp [decVal, hd]
    · rw [toDigitsCore_append, decVal_snoc, ih (n / 10) (by omega),
        digitVal_digitChar (n % 10) (Nat.mod_lt _ (by norm_num))]
      omega

/-- The decimal digits of `n` denote `n`. -/
lemma decVal_toDigits (n : Nat) : decVal (Nat.toDigits 10 n) = n :=
  decVal_toDigitsCore (n + 1) n (Nat.lt_succ_self n)

/-- No minus sign among the decimal digits. -/
lemma toDigitsCore_ne_minus (f n : Nat) (acc : List Char) (hacc : ∀ c ∈ acc, c ≠ '-') :
    ∀ c ∈ Nat.toDigitsCore 10 f n acc, c ≠ '-' := by
  induction f generalizing n acc with
  | zero => simpa [Nat.toDigitsCore] using hacc
  | succ f ih =>
    have hd : ∀ c ∈ Nat.digitChar (n % 10) :: acc, c ≠ '-' := by
      intro c hc
      rcases List.mem_cons.mp hc with rfl | hc
      · exact digitChar_ne_minus _ (Nat.mod_lt _ (by norm_num))
      · exact hacc c hc
    simp only [Nat.toDigitsCore]
    split_ifs
    · exact hd
    · exact ih _ _ hd

/-- The decimal rendering determines the integer. -/
lemma FormatInt_injective (i j : Int) (h : FormatInt i 10 = FormatInt j 10) : i = j := by
  unfold FormatInt at h
  have hm : ∀ n : Nat, '-' ∉ Nat.toDigits 10 n := fun n hmem =>
    toDigitsCore_ne_minus (n + 1) n [] (by simp) _ hmem rfl
  split_ifs at h with hi hj hj
  · have h := congrArg String.data h
    simp only [List.cons.injEq, true_and] at h
    have := congrArg decVal h
    rw [decVal_toDigits, decVal_toDigits] at this
    omega
  · have h := congrArg String.data h
    simp only at h
    exact absurd (h ▸ List.mem_cons_self _ _) (hm _)
  · have h := congrArg String.data h
    simp only at h
    exact absurd (h.symm ▸ List.mem_cons_self _ _) (hm _)
  · have h := congrArg String.data h
    simp only at h
    have := congrArg decVal h
    rw [decVal_toDigits, decVal_toDigits] at this
    omega

/-- Two snapshot keys of the same names agree only with the same middle part. -/
lemma key_cancel (f s x y : String) (h : f ++ "_" ++ x ++ s = f ++ "_" ++ y ++ s) : x = y := by
  have := congrArg String.data h
  simp only [String.data_append, List.append_assoc, List.append_cancel_left_eq] at this
  exact String.ext (List.append_cancel_right this)

/-- A snapshot key is longer than the canonical key. -/
lemma key_ne (f s x : String) : f ++ "_" ++ x ++ s ≠ f ++ s := by
  intro h
  have := congrArg String.length h
  simp only [String.length_append] at this
  have h1 : "_".length = 1 := rfl
  omega

/-- Removing another key leaves the object under `key`. -/
lemma Store.get_remove_ne (m : Store) (key k : String) (h : key ≠ k) :
    (m.remove k).get key = m.get key := by
  induction m with
  | nil => rfl
  | cons e rest ih =>
    obtain ⟨k1, x1⟩ := e
    unfold Store.remove Store.get at ih ⊢
    by_cases hk : k1 = k
    · subst hk
      have hne : (key == k1) = false := by simpa using h
      simp [List.filter_cons, List.lookup_cons, hne, ih]
    · have hne : (k1 != k) = true := by simpa using hk
      simp only [List.filter_cons, hne, if_true, List.lookup_cons]
      cases key == k1 <;> simp [ih]

/-- After a removal there is no object under the key. -/
lemma Store.get_remove_self (m : Store) (k : String) : (m.remove k).get k = none := by
  induction m with
  | nil => rfl
  | cons e rest ih =>
    obtain ⟨k1, x1⟩ := e
    unfold Store.remove Store.get at ih ⊢
    by_cases hk : k1 = k
    · subst hk
      simp [List.filter_cons, ih]
    · have hne : (k1 != k) = true := by simpa using hk
      have hne2 : (k == k1) = false := by simpa using fun h : k = k1 => hk h.symm
      simp [List.filter_cons, hne, List.lookup_cons, hne2, ih]

/-- The object just put is the one found. -/
lemma Store.get_put_self (m : Store) (k : String) (x : Bytes) : (m.put k x).get k = some x := by
  simp [Store.put, Store.get, List.lookup_cons]

/-- Putting under another key leaves the object under `key`. -/
lemma Store.get_put_ne (m : Store) (key k : String) (x : Bytes) (h : key ≠ k) :
    (m.put k x).get key = m.get key := by
  have hne : (key == k) = false := by simpa using h
  have := Store.get_remove_ne m key k h
  unfold Store.get at this ⊢
  simp [Store.put, List.lookup_cons, hne, this]

/-- What `Backup` does on the bucket in memory. -/
lemma memService_Backup (f s : String) (t : Int) (w : World Store) :
    (memService f s).Backup t w =
      some (match w.st.get (f ++ s) with
        | some x => (none,
            { st := w.st.put (f ++ "_" ++ FormatInt t 10 ++ s) x,
              log := w.log ++ [Call.bucketCopier,
                Call.copierCopy (f ++ s) (f ++ "_" ++ FormatInt t 10 ++ s)] })
        | none => (some errNotFound,
            { st := w.st,
              log := w.log ++ [Call.bucketCopier,
                Call.copierCopy (f ++ s) (f ++ "_" ++ FormatInt t 10 ++ s)] })) := by
  unfold bs.Backup
  simp only [memService, bs.zero, invoke, memBucket, memCopier]
  cases h : w.st.get (f ++ s) <;> simp [h]

/-- On the bucket in memory `Backup` of a present object succeeds. -/
lemma memService_Backup_some (f s : String) (t : Int) (w : World Store) (x : Bytes)
    (h : w.st.get (f ++ s) = some x) :
    (memService f s).Backup t w =
      some (none,
        { st := w.st.put (f ++ "_" ++ FormatInt t 10 ++ s) x,
          log := w.log ++ [Call.bucketCopier,
            Call.copierCopy (f ++ s) (f ++ "_" ++ FormatInt t 10 ++ s)] }) := by
  rw [memService_Backup, h]

/-- On the bucket in memory `Backup` of an absent object fails and changes
nothing. -/
lemma memService_Backup_none (f s : String) (t : Int) (w : World Store)
    (h : w.st.get (f ++ s) = none) :
    (memService f s).Backup t w =
      some (some errNotFound,
        { st := w.st,
          log := w.log ++ [Call.bucketCopier,
            Call.copierCopy (f ++ s) (f ++ "_" ++ FormatInt t 10 ++ s)] }) := by
  rw [memService_Backup, h]

/-- A `Backup` adds to the log the call `Copier` and at most one `Copy`, from
the canonical key to the snapshot key. -/
lemma Backup_log {σ ρ : Type} (b : bs σ ρ) (t : Int) (w w1 : World σ) (r : Option Error)
    (h : b.Backup t w = some (r, w1)) :
    ∃ l : List Call, w1.log = w.log ++ l ∧
      ∀ c ∈ l, c = Call.bucketCopier ∨
        c = Call.copierCopy (b.filename ++ b.suffix)
          (b.filename ++ "_" ++ FormatInt t 10 ++ b.suffix) := by
  unfold bs.Backup at h
  cases hb : b.bucket with
  | none => simp [hb] at h
  | some bucket =>
    simp only [hb, invoke] at h
    cases hc : (bucket.Copier w.st).1 with
    | error err =>
      simp only [hc, Option.some.injEq, Prod.mk.injEq] at h
      exact ⟨[Call.bucketCopier], by rw [← h.2], by simp⟩
    | ok c =>
      simp only [hc, Option.some.injEq, Prod.mk.injEq] at h
      exact ⟨[Call.bucketCopier, Call.copierCopy (b.filename ++ b.suffix)
        (b.filename ++ "_" ++ FormatInt t 10 ++ b.suffix)], by rw [← h.2]; simp, by simp⟩

/-- A string has length zero exactly when it is the empty string. -/
lemma length_eq_zero_iff (s : String) : s.length = 0 ↔ s = "" := by
  constructor
  · intro h
    apply String.ext
    exact List.length_eq_zero.mp h
  · intro h
    rw [h]
    rfl

/-! ## Lemmas on the initialisation steps -/

/-- The error of `assignCompressor` is the error of the constructor. -/
lemma assignCompressor_err {σ ρ : Type} (b : bs σ ρ)
    (r : Except Error (Compressor σ ρ) × World σ) (err : Error) :
    (b.assignCompressor r).1 = some err ↔ r.1 = Except.error err := by
  obtain ⟨r1, r2⟩ := r
  cases r1 <;> simp [bs.assignCompressor]

/-- The world after `assignCompressor` is the world after the constructor. -/
lemma assignCompressor_world {σ ρ : Type} (b : bs σ ρ)
    (r : Except Error (Compressor σ ρ) × World σ) :
    (b.assignCompressor r).2.2 = r.2 := by
  obtain ⟨r1, r2⟩ := r
  cases r1 <;> simp [bs.assignCompressor]

/-- The step `assignCompressor` changes no field but `compressor`. -/
lemma assignCompressor_storageType {σ ρ : Type} (b : bs σ ρ)
    (r : Except Error (Compressor σ ρ) × World σ) :
    (b.assignCompressor r).2.1.storageType = b.storageType := by
  obtain ⟨r1, r2⟩ := r
  cases r1 <;> simp [bs.assignCompressor]

/-- The step `initCompressor` leaves the configured storage type. -/
lemma initCompressor_storageType {σ ρ : Type} (env : Env σ ρ) (b : bs σ ρ) (w : World σ) :
    (b.initCompressor env w).2.1.storageType = b.storageType := by
  unfold bs.initCompressor
  split_ifs <;> simp [assignCompressor_storageType]

/-- The step `initCompressor` issues at most one call, the construction of a
codec; the storage state and the log are otherwise as before. -/
lemma initCompressor_log {σ ρ : Type} (env : Env σ ρ) (b : bs σ ρ) (w : World σ) :
    ∃ l : List Call, (b.initCompressor env w).2.2.log = w.log ++ l ∧
      ∀ c ∈ l, c.isCodec = true := by
  unfold bs.initCompressor
  split_ifs
  · exact ⟨[], by simp, by simp⟩
  · exact ⟨[Call.newGob], by simp [assignCompressor_world, invoke], by simp [Call.isCodec]⟩
  · exact ⟨[Call.newGzip b.compressionLevel], by simp [assignCompressor_world, invoke],
      by simp [Call.isCodec]⟩
  · exact ⟨[Call.newLZ4 b.compressionLevel], by simp [assignCompressor_world, invoke],
      by simp [Call.isCodec]⟩
  · exact ⟨[Call.newZstd b.compressionLevel], by simp [assignCompressor_world, invoke],
      by simp [Call.isCodec]⟩
  · exact ⟨[], by simp, by simp⟩

/-- With an unrecognised backend `initBucket` fails at once. -/
lemma initBucket_invalid {σ ρ : Type} (env : Env σ ρ) (b : bs σ ρ) (w : World σ)
    (h : env.AtoBST b.storageType ≠ S3) :
    b.initBucket env w = (some Error.ErrInvalidStorageType, b, w) := by
  unfold bs.initBucket
  rw [if_neg h]

/-- A successful `initBucket` has set the bucket. -/
lemma initBucket_ok_bucket {σ ρ : Type} (env : Env σ ρ) (b : bs σ ρ) (w : World σ)
    (h : (b.initBucket env w).1 = none) :
    (b.initBucket env w).2.1.bucket.isSome = true := by
  unfold bs.initBucket at h ⊢
  split_ifs at h ⊢ with h1
  simp only [invoke] at h ⊢
  cases hs : (env.sessionNew b.s3SessionOpts w.st).1 with
  | error e => simp [hs] at h
  | ok s =>
    simp only [hs] at h ⊢
    split at h <;> rename_i heq <;> simp at h
    simp [heq]

/-- The step `initBucket` leaves the compressor. -/
lemma initBucket_compressor {σ ρ : Type} (env : Env σ ρ) (b : bs σ ρ) (w : World σ) :
    (b.initBucket env w).2.1.compressor = b.compressor := by
  unfold bs.initBucket
  split_ifs
  · simp only [invoke]
    cases (env.sessionNew b.s3SessionOpts w.st).1 with
    | error e => rfl
    | ok s =>
      simp only
      split <;> rfl
  · rfl

/-- A service that `New` builds from an empty compression algorithm has the
compressor that the options left. -/
lemma New_empty_algorithm {σ ρ : Type} (env : Env σ ρ) (opts : List (OptionFn σ ρ))
    (w w1 : World σ) (b s : bs σ ρ)
    (hopts : applyOptions (env.defaultOptions ++ opts) (bs.zero σ ρ) = Except.ok b)
    (ha : b.compressAlgorithm = "") (hnew : New env opts w = (Except.ok s, w1)) :
    s.compressor = b.compressor := by
  have hic : b.initCompressor env w = (none, b, w) := by
    simp [bs.initCompressor, ha]
  unfold New at hnew
  simp only [hopts, hic] at hnew
  rcases hib : b.initBucket env w with ⟨e, b2, w2⟩
  have hcomp := initBucket_compressor env b w
  rw [hib] at hnew hcomp
  cases e with
  | some err => simp at hnew
  | none =>
    simp only [Prod.mk.injEq, Except.ok.injEq] at hnew
    rw [← hnew.1]
    exact hcomp

/-- The loop over the options, on a list in two parts. -/
lemma applyOptions_append {σ ρ : Type} (l1 l2 : List (OptionFn σ ρ)) (b0 : bs σ ρ) :
    applyOptions (l1 ++ l2) b0 =
      match applyOptions l1 b0 with
      | Except.error err => Except.error err
      | Except.ok b1 => applyOptions l2 b1 := by
  induction l1 generalizing b0 with
  | nil => simp [applyOptions]
  | cons opt rest ih =>
    simp only [List.cons_append, applyOptions]
    rcases h : opt.apply b0 with ⟨_ | err, b1⟩
    · simp [ih]
    · simp

/-! ## Theorems -/

/-- C1: when obtaining the copier succeeds, `Backup` issues the call `Copier`
and then exactly one `Copy(src, dst)` with `src = filename ++ suffix` and
`dst = filename ++ "_" ++ FormatInt now 10 ++ suffix`, where `now` is the Unix
time in nanoseconds read by the call; it returns what that `Copy` returns and
leaves the storage in the state that `Copy` produced. The log grows by these
two calls only: there is no read through the bucket or the compressor. The
middle part of `dst` is the base-10 rendering of `now`: read as decimal digits
it denotes `now` (after the minus sign, its absolute value). -/
theorem Backup_issues_one_copy {σ ρ : Type} (b : bs σ ρ) (bucket : Bucket σ ρ)
    (now : Int) (w : World σ) (c : Copier σ)
    (hb : b.bucket = some bucket) (hc : (bucket.Copier w.st).1 = Except.ok c) :
    b.Backup now w =
      some ((c.Copy (b.filename ++ b.suffix)
              (b.filename ++ "_" ++ FormatInt now 10 ++ b.suffix) (bucket.Copier w.st).2).1,
            { st := (c.Copy (b.filename ++ b.suffix)
                (b.filename ++ "_" ++ FormatInt now 10 ++ b.suffix) (bucket.Copier w.st).2).2,
              log := w.log ++ [Call.bucketCopier,
                Call.copierCopy (b.filename ++ b.suffix)
                  (b.filename ++ "_" ++ FormatInt now 10 ++ b.suffix)] }) ∧
    (0 ≤ now → decVal (FormatInt now 10).data = now.toNat) ∧
    (now < 0 → ∃ ds : List Char, (FormatInt now 10).data = '-' :: ds ∧
      decVal ds = now.natAbs) := by
  refine ⟨?_, ?_, ?_⟩
  · unfold bs.Backup
    simp only [hb, invoke, hc, List.append_assoc, List.singleton_append]
  · intro h0
    unfold FormatInt
    rw [if_neg (not_lt.mpr h0)]
    exact decVal_toDigits _
  · intro h0
    unfold FormatInt
    rw [if_pos h0]
    exact ⟨_, rfl, decVal_toDigits _⟩

/-- C1 at a concrete input: the service `index` / `.snap` over the bucket in
memory, at time 1700000000000000000. -/
theorem Backup_issues_one_copy_witness :
    (memService "index" ".snap").bucket = some memBucket ∧
    (memBucket.Copier (memWorld [1, 2]).st).1 = Except.ok memCopier ∧
    (memService "index" ".snap").Backup 1700000000000000000 (memWorld [1, 2]) =
      some ((memCopier.Copy ("index" ++ ".snap")
              ("index" ++ "_" ++ FormatInt 1700000000000000000 10 ++ ".snap")
              (memBucket.Copier (memWorld [1, 2]).st).2).1,
            { st := (memCopier.Copy ("index" ++ ".snap")
                ("index" ++ "_" ++ FormatInt 1700000000000000000 10 ++ ".snap")
                (memBucket.Copier (memWorld [1, 2]).st).2).2,
              log := (memWorld [1, 2]).log ++ [Call.bucketCopier,
                Call.copierCopy ("index" ++ ".snap")
                  ("index" ++ "_" ++ FormatInt 1700000000000000000 10 ++ ".snap")] }) :=
  ⟨rfl, rfl,
    (Backup_issues_one_copy (memService "index" ".snap") memBucket 1700000000000000000
      (memWorld [1, 2]) memCopier rfl rfl).1⟩

/-- C6: `Reader` opens exactly the key `filename ++ suffix` through the bucket.
With an empty compression algorithm `initCompressor` succeeds and leaves the
service, hence its compressor, as it was (nil for a new service), and a service
that `New` builds then has no compressor unless an option set one. Without a
compressor `Reader` returns the stream of the bucket unchanged; with a
compressor, when both steps succeed, it returns the result of the compressor's
`Reader` applied to that stream. -/
theorem Reader_composition {σ ρ : Type} (env : Env σ ρ) (b : bs σ ρ)
    (bucket : Bucket σ ρ) (w : World σ) (hb : b.bucket = some bucket) :
    (b.compressAlgorithm = "" → b.initCompressor env w = (none, b, w)) ∧
    ((bs.zero σ ρ).initCompressor env w = (none, bs.zero σ ρ, w) ∧
      (bs.zero σ ρ).compressor.isNone = true) ∧
    (∀ (opts : List (OptionFn σ ρ)) (b0 s : bs σ ρ) (w0 w1 : World σ),
      applyOptions (env.defaultOptions ++ opts) (bs.zero σ ρ) = Except.ok b0 →
      b0.compressAlgorithm = "" → b0.compressor.isNone = true →
      New env opts w0 = (Except.ok s, w1) → s.compressor.isNone = true) ∧
    (∀ r : ρ, (bucket.Reader (b.filename ++ b.suffix) w.st).1 = Except.ok r →
      b.compressor = none →
      b.Reader w = some (Except.ok r,
        { st := (bucket.Reader (b.filename ++ b.suffix) w.st).2,
          log := w.log ++ [Call.bucketReader (b.filename ++ b.suffix)] })) ∧
    (∀ (r r2 : ρ) (c : Compressor σ ρ),
      (bucket.Reader (b.filename ++ b.suffix) w.st).1 = Except.ok r →
      b.compressor = some c →
      (c.Reader r (bucket.Reader (b.filename ++ b.suffix) w.st).2).1 = Except.ok r2 →
      b.Reader w = some (Except.ok r2,
        { st := (c.Reader r (bucket.Reader (b.filename ++ b.suffix) w.st).2).2,
          log := w.log ++ [Call.bucketReader (b.filename ++ b.suffix),
            Call.compressorReader] })) ∧
    (∃ res w1, b.Reader w = some (res, w1) ∧
      (w1.log = w.log ++ [Call.bucketReader (b.filename ++ b.suffix)] ∨
       w1.log = w.log ++ [Call.bucketReader (b.filename ++ b.suffix),
         Call.compressorReader])) := by
  refine ⟨?_, ⟨?_, rfl⟩, ?_, ?_, ?_, ?_⟩
  · intro h
    simp [bs.initCompressor, h]
  · simp [bs.initCompressor, bs.zero]
  · intro opts b0 s w0 w1 hopts ha hnone hnew
    rw [New_empty_algorithm env opts w0 w1 b0 s hopts ha hnew]
    exact hnone
  · intro r hr hc
    unfold bs.Reader
    simp only [hb, invoke, hr, hc]
  · intro r r2 c hr hc hr2
    unfold bs.Reader
    simp only [hb, invoke, hr, hc, hr2, List.append_assoc, List.singleton_append]
  · unfold bs.Reader
    simp only [hb, invoke]
    cases hr : (bucket.Reader (b.filename ++ b.suffix) w.st).1 with
    | error err => exact ⟨_, _, rfl, Or.inl rfl⟩
    | ok r =>
      cases hc : b.compressor with
      | none => exact ⟨_, _, rfl, Or.inl rfl⟩
      | some c =>
        simp only []
        cases hr2 : (c.Reader r (bucket.Reader (b.filename ++ b.suffix) w.st).2).1 with
        | error err => exact ⟨_, _, rfl, Or.inr (by simp)⟩
        | ok r2 => exact ⟨_, _, rfl, Or.inr (by simp)⟩

/-- C6 at a concrete input: without compressor the bytes of `index.snap` come
back unchanged. -/
theorem Reader_composition_witness :
    (memService "index" ".snap").bucket = some memBucket ∧
    (memService "index" ".snap").Reader (memWorld [1, 2]) =
      some (Except.ok [1, 2],
        { st := [("index.snap", [1, 2])], log := [Call.bucketReader "index.snap"] }) :=
  ⟨rfl, (Reader_composition memEnv (memService "index" ".snap") memBucket
    (memWorld [1, 2]) rfl).2.2.2.1 [1, 2] rfl rfl⟩

/-- C7: `Reader` returns an error exactly when the bucket's `Reader` for
`filename ++ suffix` fails, or a configured compressor's `Reader` fails on the
opened stream. In both cases the result carries no stream and the error is the
very value that the failing collaborator returned; when the bucket read fails
the compressor is not invoked (the log grows by the bucket read only). -/
theorem Reader_errors {σ ρ : Type} (b : bs σ ρ) (bucket : Bucket σ ρ) (w : World σ)
    (hb : b.bucket = some bucket) :
    (∀ err : Error, (bucket.Reader (b.filename ++ b.suffix) w.st).1 = Except.error err →
      b.Reader w = some (Except.error err,
        { st := (bucket.Reader (b.filename ++ b.suffix) w.st).2,
          log := w.log ++ [Call.bucketReader (b.filename ++ b.suffix)] })) ∧
    (∀ (r : ρ) (c : Compressor σ ρ) (err : Error),
      (bucket.Reader (b.filename ++ b.suffix) w.st).1 = Except.ok r →
      b.compressor = some c →
      (c.Reader r (bucket.Reader (b.filename ++ b.suffix) w.st).2).1 = Except.error err →
      b.Reader w = some (Except.error err,
        { st := (c.Reader r (bucket.Reader (b.filename ++ b.suffix) w.st).2).2,
          log := w.log ++ [Call.bucketReader (b.filename ++ b.suffix),
            Call.compressorReader] })) ∧
    ((∃ err w1, b.Reader w = some (Except.error err, w1)) ↔
      ((∃ err, (bucket.Reader (b.filename ++ b.suffix) w.st).1 = Except.error err) ∨
       (∃ r c err, (bucket.Reader (b.filename ++ b.suffix) w.st).1 = Except.ok r ∧
          b.compressor = some c ∧
          (c.Reader r (bucket.Reader (b.filename ++ b.suffix) w.st).2).1
            = Except.error err))) := by
  have h1 : ∀ err : Error,
      (bucket.Reader (b.filename ++ b.suffix) w.st).1 = Except.error err →
      b.Reader w = some (Except.error err,
        { st := (bucket.Reader (b.filename ++ b.suffix) w.st).2,
          log := w.log ++ [Call.bucketReader (b.filename ++ b.suffix)] }) := by
    intro err hr
    unfold bs.Reader
    simp only [hb, invoke, hr]
  have h2 : ∀ (r : ρ) (c : Compressor σ ρ) (err : Error),
      (bucket.Reader (b.filename ++ b.suffix) w.st).1 = Except.ok r →
      b.compressor = some c →
      (c.Reader r (bucket.Reader (b.filename ++ b.suffix) w.st).2).1 = Except.error err →
      b.Reader w = some (Except.error err,
        { st := (c.Reader r (bucket.Reader (b.filename ++ b.suffix) w.st).2).2,
          log := w.log ++ [Call.bucketReader (b.filename ++ b.suffix),
            Call.compressorReader] }) := by
    intro r c err hr hc he
    unfold bs.Reader
    simp only [hb, invoke, hr, hc, he, List.append_assoc, List.singleton_append]
  refine ⟨h1, h2, ?_, ?_⟩
  · rintro ⟨err, w1, h⟩
    cases hr : (bucket.Reader (b.filename ++ b.suffix) w.st).1 with
    | error e => exact Or.inl ⟨e, rfl⟩
    | ok r =>
      right
      cases hc : b.compressor with
      | none =>
        unfold bs.Reader at h
        simp [hb, invoke, hr, hc] at h
      | some c =>
        cases he : (c.Reader r (bucket.Reader (b.filename ++ b.suffix) w.st).2).1 with
        | error e => exact ⟨r, c, e, rfl, rfl, he⟩
        | ok r2 =>
          unfold bs.Reader at h
          simp [hb, invoke, hr, hc, he] at h
  · rintro (⟨err, hr⟩ | ⟨r, c, err, hr, hc, he⟩)
    · exact ⟨err, _, h1 err hr⟩
    · exact ⟨err, _, h2 r c err hr hc he⟩

/-- C7 at a concrete input: the canonical object is absent, the error of the
bucket comes back as it is and only the bucket was called. -/
theorem Reader_errors_witness :
    (memService "absent" ".snap").bucket = some memBucket ∧
    (memService "absent" ".snap").Reader (memWorld [1, 2]) =
      some (Except.error errNotFound,
        { st := [("index.snap", [1, 2])], log := [Call.bucketReader "absent.snap"] }) :=
  ⟨rfl, (Reader_errors (memService "absent" ".snap") memBucket
    (memWorld [1, 2]) rfl).1 errNotFound rfl⟩

/-- C8: `Delete` returns an error exactly when obtaining the delete capability
fails or the capability's `Delete(filename ++ suffix)` fails, and the error is
the very value of the failing step. When the capability cannot be obtained no
`Delete` is issued (the log grows by the call `Deleter` only); when it is
obtained, exactly one `Delete` is issued, on the key `filename ++ suffix`. -/
theorem Delete_errors {σ ρ : Type} (b : bs σ ρ) (bucket : Bucket σ ρ) (w : World σ)
    (hb : b.bucket = some bucket) :
    (∀ err : Error, (bucket.Deleter w.st).1 = Except.error err →
      b.Delete w = some (some err,
        { st := (bucket.Deleter w.st).2, log := w.log ++ [Call.bucketDeleter] })) ∧
    (∀ d : Deleter σ, (bucket.Deleter w.st).1 = Except.ok d →
      b.Delete w = some ((d.Delete (b.filename ++ b.suffix) (bucket.Deleter w.st).2).1,
        { st := (d.Delete (b.filename ++ b.suffix) (bucket.Deleter w.st).2).2,
          log := w.log ++ [Call.bucketDeleter,
            Call.deleterDelete (b.filename ++ b.suffix)] })) ∧
    (∀ err : Error, (∃ w1, b.Delete w = some (some err, w1)) ↔
      ((bucket.Deleter w.st).1 = Except.error err ∨
       (∃ d, (bucket.Deleter w.st).1 = Except.ok d ∧
          (d.Delete (b.filename ++ b.suffix) (bucket.Deleter w.st).2).1 = some err))) := by
  have h1 : ∀ err : Error, (bucket.Deleter w.st).1 = Except.error err →
      b.Delete w = some (some err,
        { st := (bucket.Deleter w.st).2, log := w.log ++ [Call.bucketDeleter] }) := by
    intro err hd
    unfold bs.Delete
    simp only [hb, invoke, hd]
  have h2 : ∀ d : Deleter σ, (bucket.Deleter w.st).1 = Except.ok d →
      b.Delete w = some ((d.Delete (b.filename ++ b.suffix) (bucket.Deleter w.st).2).1,
        { st := (d.Delete (b.filename ++ b.suffix) (bucket.Deleter w.st).2).2,
          log := w.log ++ [Call.bucketDeleter,
            Call.deleterDelete (b.filename ++ b.suffix)] }) := by
    intro d hd
    unfold bs.Delete
    simp only [hb, invoke, hd, List.append_assoc, List.singleton_append]
  refine ⟨h1, h2, ?_⟩
  intro err
  constructor
  · rintro ⟨w1, h⟩
    cases hd : (bucket.Deleter w.st).1 with
    | error e =>
      rw [h1 e hd] at h
      simp only [Option.some.injEq, Prod.mk.injEq] at h
      exact Or.inl (by rw [h.1])
    | ok d =>
      rw [h2 d hd] at h
      simp only [Option.some.injEq, Prod.mk.injEq] at h
      exact Or.inr ⟨d, rfl, h.1⟩
  · rintro (hd | ⟨d, hd, he⟩)
    · exact ⟨_, h1 err hd⟩
    · exact ⟨_, by rw [h2 d hd, he]⟩

/-- C8 at a concrete input: the capability is granted and the one `Delete`
removes `index.snap`. -/
theorem Delete_errors_witness :
    (memService "index" ".snap").bucket = some memBucket ∧
    (memService "index" ".snap").Delete (memWorld [1, 2]) =
      some (none,
        { st := [], log := [Call.bucketDeleter, Call.deleterDelete "index.snap"] }) :=
  ⟨rfl, (Delete_errors (memService "index" ".snap") memBucket
    (memWorld [1, 2]) rfl).2.1 memDeleter rfl⟩

/-- C3: when every option applies and the compressor step succeeds, and the
configured storage type does not resolve to `S3`, `New` returns no service and
the error `ErrInvalidStorageType`. The world is the one the compressor step
left: `initBucket` issued no call, and the calls since the start are codec
constructions only, so neither a session nor a bucket was created. -/
theorem New_invalid_storage_type {σ ρ : Type} (env : Env σ ρ)
    (opts : List (OptionFn σ ρ)) (w : World σ) (b : bs σ ρ)
    (hopts : applyOptions (env.defaultOptions ++ opts) (bs.zero σ ρ) = Except.ok b)
    (hcomp : (b.initCompressor env w).1 = none)
    (htype : env.AtoBST b.storageType ≠ S3) :
    New env opts w = (Except.error Error.ErrInvalidStorageType, (b.initCompressor env w).2.2) ∧
    (b.initCompressor env w).2.1.initBucket env (b.initCompressor env w).2.2 =
      (some Error.ErrInvalidStorageType, (b.initCompressor env w).2.1,
        (b.initCompressor env w).2.2) ∧
    (∃ l : List Call, (New env opts w).2.log = w.log ++ l ∧
      Call.sessionNew ∉ l ∧ Call.s3New ∉ l) := by
  have ht : env.AtoBST (b.initCompressor env w).2.1.storageType ≠ S3 := by
    rw [initCompressor_storageType]; exact htype
  have hb := initBucket_invalid env _ (b.initCompressor env w).2.2 ht
  have hnew : New env opts w =
      (Except.error Error.ErrInvalidStorageType, (b.initCompressor env w).2.2) := by
    unfold New
    rw [hopts]
    rcases hic : b.initCompressor env w with ⟨e, b1, w1⟩
    rw [hic] at hcomp hb
    simp only at hcomp hb
    subst hcomp
    simp only [hic, hb]
  refine ⟨hnew, hb, ?_⟩
  obtain ⟨l, hl, hcodec⟩ := initCompressor_log env b w
  refine ⟨l, by rw [hnew]; exact hl, ?_, ?_⟩
  · intro hmem
    have := hcodec _ hmem
    simp [Call.isCodec] at this
  · intro hmem
    have := hcodec _ hmem
    simp [Call.isCodec] at this

/-- C3 at a concrete input: the storage type `gcs` with gzip compression. -/
theorem New_invalid_storage_type_witness :
    applyOptions (memEnv.defaultOptions ++
        [withStorageType "gcs", withCompressAlgorithm "gzip"]) (bs.zero Store Bytes) =
      Except.ok { bs.zero Store Bytes with storageType := "gcs", compressAlgorithm := "gzip" } ∧
    (bs.initCompressor memEnv
      { bs.zero Store Bytes with storageType := "gcs", compressAlgorithm := "gzip" }
      (memWorld [])).1 = none ∧
    memEnv.AtoBST "gcs" ≠ S3 ∧
    (New memEnv [withStorageType "gcs", withCompressAlgorithm "gzip"] (memWorld [])).1 =
      Except.error Error.ErrInvalidStorageType :=
  ⟨rfl, by decide, by decide,
    congrArg Prod.fst (New_invalid_storage_type memEnv
      [withStorageType "gcs", withCompressAlgorithm "gzip"] (memWorld [])
      { bs.zero Store Bytes with storageType := "gcs", compressAlgorithm := "gzip" }
      rfl (by decide) (by decide)).1⟩

/-- C4: for a non-empty identifier that `config.CompressAlgorithm` maps to none
of `GOB`, `GZIP`, `LZ4`, `ZSTD`, and any compression level, `initCompressor`
fails with `ErrCompressorNameNotFound` of exactly that identifier, constructs
no codec and leaves the service (its compressor included) as it was; hence
`New` fails with the same error once the options have applied. Conversely, for
the empty identifier the step returns no error, for a recognised algorithm it
returns what the codec constructor returns, and so, as long as no codec
constructor returns this error itself, the error is returned only for a
non-empty unrecognised identifier, which it names. -/
theorem initCompressor_name_not_found {σ ρ : Type} (env : Env σ ρ) (b : bs σ ρ)
    (w : World σ) :
    (b.compressAlgorithm ≠ "" →
      env.CompressAlgorithm b.compressAlgorithm ≠ GOB →
      env.CompressAlgorithm b.compressAlgorithm ≠ GZIP →
      env.CompressAlgorithm b.compressAlgorithm ≠ LZ4 →
      env.CompressAlgorithm b.compressAlgorithm ≠ ZSTD →
      b.initCompressor env w =
        (some (Error.ErrCompressorNameNotFound b.compressAlgorithm), b, w) ∧
      ∀ opts : List (OptionFn σ ρ),
        applyOptions (env.defaultOptions ++ opts) (bs.zero σ ρ) = Except.ok b →
        New env opts w =
          (Except.error (Error.ErrCompressorNameNotFound b.compressAlgorithm), w)) ∧
    (b.compressAlgorithm = "" → b.initCompressor env w = (none, b, w)) ∧
    (b.compressAlgorithm ≠ "" → env.CompressAlgorithm b.compressAlgorithm = GOB →
      b.initCompressor env w = b.assignCompressor (invoke Call.newGob env.NewGob w)) ∧
    (b.compressAlgorithm ≠ "" → env.CompressAlgorithm b.compressAlgorithm = GZIP →
      b.initCompressor env w = b.assignCompressor
        (invoke (Call.newGzip b.compressionLevel) (env.NewGzip b.compressionLevel) w)) ∧
    (b.compressAlgorithm ≠ "" → env.CompressAlgorithm b.compressAlgorithm = LZ4 →
      b.initCompressor env w = b.assignCompressor
        (invoke (Call.newLZ4 b.compressionLevel) (env.NewLZ4 b.compressionLevel) w)) ∧
    (b.compressAlgorithm ≠ "" → env.CompressAlgorithm b.compressAlgorithm = ZSTD →
      b.initCompressor env w = b.assignCompressor
        (invoke (Call.newZstd b.compressionLevel) (env.NewZstd b.compressionLevel) w)) ∧
    (env.codecsKeepName → ∀ name : String,
      (b.initCompressor env w).1 = some (Error.ErrCompressorNameNotFound name) →
      name = b.compressAlgorithm ∧ b.compressAlgorithm ≠ "" ∧
      env.CompressAlgorithm b.compressAlgorithm ≠ GOB ∧
      env.CompressAlgorithm b.compressAlgorithm ≠ GZIP ∧
      env.CompressAlgorithm b.compressAlgorithm ≠ LZ4 ∧
      env.CompressAlgorithm b.compressAlgorithm ≠ ZSTD) := by
  refine ⟨?_, ?_, ?_, ?_, ?_, ?_, ?_⟩
  · intro h0 h1 h2 h3 h4
    have hic : b.initCompressor env w =
        (some (Error.ErrCompressorNameNotFound b.compressAlgorithm), b, w) := by
      unfold bs.initCompressor
      rw [if_neg h0, if_neg h1, if_neg h2, if_neg h3, if_neg h4]
    refine ⟨hic, ?_⟩
    intro opts hopts
    unfold New
    simp only [hopts, hic]
  · intro h0
    unfold bs.initCompressor
    rw [if_pos h0]
  · intro h0 h1
    unfold bs.initCompressor
    rw [if_neg h0, if_pos h1]
  · intro h0 h2
    have h1 : env.CompressAlgorithm b.compressAlgorithm ≠ GOB := by rw [h2]; decide
    unfold bs.initCompressor
    rw [if_neg h0, if_neg h1, if_pos h2]
  · intro h0 h3
    have h1 : env.CompressAlgorithm b.compressAlgorithm ≠ GOB := by rw [h3]; decide
    have h2 : env.CompressAlgorithm b.compressAlgorithm ≠ GZIP := by rw [h3]; decide
    unfold bs.initCompressor
    rw [if_neg h0, if_neg h1, if_neg h2, if_pos h3]
  · intro h0 h4
    have h1 : env.CompressAlgorithm b.compressAlgorithm ≠ GOB := by rw [h4]; decide
    have h2 : env.CompressAlgorithm b.compressAlgorithm ≠ GZIP := by rw [h4]; decide
    have h3 : env.CompressAlgorithm b.compressAlgorithm ≠ LZ4 := by rw [h4]; decide
    unfold bs.initCompressor
    rw [if_neg h0, if_neg h1, if_neg h2, if_neg h3, if_pos h4]
  · intro hk name h
    unfold bs.initCompressor at h
    split_ifs at h with h0 h1 h2 h3 h4
    · rw [assignCompressor_err] at h
      exact absurd h (hk name 0 w.st).1
    · rw [assignCompressor_err] at h
      exact absurd h (hk name b.compressionLevel w.st).2.1
    · rw [assignCompressor_err] at h
      exact absurd h (hk name b.compressionLevel w.st).2.2.1
    · rw [assignCompressor_err] at h
      exact absurd h (hk name b.compressionLevel w.st).2.2.2
    · simp only [Option.some.injEq, Error.ErrCompressorNameNotFound.injEq] at h
      exact ⟨h.symm, h0, h1, h2, h3, h4⟩

/-- C4 at a concrete input: the identifier `brotli` at level 3, over an
environment whose codec constructors do not return the error themselves. -/
theorem initCompressor_name_not_found_witness :
    "brotli" ≠ "" ∧ memEnv.CompressAlgorithm "brotli" ≠ GOB ∧
    memEnv.CompressAlgorithm "brotli" ≠ GZIP ∧ memEnv.CompressAlgorithm "brotli" ≠ LZ4 ∧
    memEnv.CompressAlgorithm "brotli" ≠ ZSTD ∧ memEnv.codecsKeepName ∧
    bs.initCompressor memEnv
        { bs.zero Store Bytes with compressAlgorithm := "brotli", compressionLevel := 3 }
        (memWorld []) =
      (some (Error.ErrCompressorNameNotFound "brotli"),
        { bs.zero Store Bytes with compressAlgorithm := "brotli", compressionLevel := 3 },
        memWorld []) :=
  ⟨by decide, by decide, by decide, by decide, by decide,
    by
      intro name level st
      simp only [memEnv]
      refine ⟨by simp, ?_, ?_, ?_⟩ <;> split_ifs <;> simp,
    ((initCompressor_name_not_found memEnv
      { bs.zero Store Bytes with compressAlgorithm := "brotli", compressionLevel := 3 }
      (memWorld [])).1 (by decide) (by decide) (by decide) (by decide) (by decide)).1⟩

/-- C5: `New` applies the options, the defaults first and then the caller's in
the order given, then runs `initCompressor`, then `initBucket`, and returns a
service exactly when all three succeed. The first failure ends it without a
service: an option failure with `ErrOptionFailed` of the option's error and no
call issued; a compressor failure with the compressor's error, in the world
the compressor step left (no session, no bucket); a bucket failure with the
bucket step's error. On success the service has its bucket set. When both the
compression algorithm and the storage type are misconfigured the compressor
error is the one reported. -/
theorem New_order {σ ρ : Type} (env : Env σ ρ) (opts : List (OptionFn σ ρ))
    (w : World σ) :
    (∀ err : Error,
      applyOptions (env.defaultOptions ++ opts) (bs.zero σ ρ) = Except.error err →
      New env opts w = (Except.error err, w)) ∧
    (∀ (pre post : List (OptionFn σ ρ)) (opt : OptionFn σ ρ) (b0 b1 b2 : bs σ ρ)
      (err : Error), applyOptions pre b0 = Except.ok b1 → opt.apply b1 = (some err, b2) →
      applyOptions (pre ++ opt :: post) b0 =
        Except.error (Error.ErrOptionFailed err opt.ref)) ∧
    (∀ (b : bs σ ρ) (err : Error),
      applyOptions (env.defaultOptions ++ opts) (bs.zero σ ρ) = Except.ok b →
      (b.initCompressor env w).1 = some err →
      New env opts w = (Except.error err, (b.initCompressor env w).2.2) ∧
      ∃ l : List Call, (New env opts w).2.log = w.log ++ l ∧
        Call.sessionNew ∉ l ∧ Call.s3New ∉ l) ∧
    (∀ (b : bs σ ρ) (err : Error),
      applyOptions (env.defaultOptions ++ opts) (bs.zero σ ρ) = Except.ok b →
      (b.initCompressor env w).1 = none →
      ((b.initCompressor env w).2.1.initBucket env (b.initCompressor env w).2.2).1
        = some err →
      New env opts w = (Except.error err,
        ((b.initCompressor env w).2.1.initBucket env (b.initCompressor env w).2.2).2.2)) ∧
    (∀ b : bs σ ρ,
      applyOptions (env.defaultOptions ++ opts) (bs.zero σ ρ) = Except.ok b →
      (b.initCompressor env w).1 = none →
      ((b.initCompressor env w).2.1.initBucket env (b.initCompressor env w).2.2).1
        = none →
      New env opts w = (Except.ok
          ((b.initCompressor env w).2.1.initBucket env (b.initCompressor env w).2.2).2.1,
        ((b.initCompressor env w).2.1.initBucket env (b.initCompressor env w).2.2).2.2) ∧
      ((b.initCompressor env w).2.1.initBucket env
        (b.initCompressor env w).2.2).2.1.bucket.isSome = true) ∧
    ((∃ s, (New env opts w).1 = Except.ok s) ↔
      ∃ b, applyOptions (env.defaultOptions ++ opts) (bs.zero σ ρ) = Except.ok b ∧
        (b.initCompressor env w).1 = none ∧
        ((b.initCompressor env w).2.1.initBucket env (b.initCompressor env w).2.2).1
          = none) ∧
    (∀ b : bs σ ρ,
      applyOptions (env.defaultOptions ++ opts) (bs.zero σ ρ) = Except.ok b →
      b.compressAlgorithm ≠ "" →
      env.CompressAlgorithm b.compressAlgorithm ≠ GOB →
      env.CompressAlgorithm b.compressAlgorithm ≠ GZIP →
      env.CompressAlgorithm b.compressAlgorithm ≠ LZ4 →
      env.CompressAlgorithm b.compressAlgorithm ≠ ZSTD →
      env.AtoBST b.storageType ≠ S3 →
      New env opts w =
        (Except.error (Error.ErrCompressorNameNotFound b.compressAlgorithm), w)) := by
  have hcomp : ∀ (b : bs σ ρ) (err : Error),
      applyOptions (env.defaultOptions ++ opts) (bs.zero σ ρ) = Except.ok b →
      (b.initCompressor env w).1 = some err →
      New env opts w = (Except.error err, (b.initCompressor env w).2.2) := by
    intro b err hopts hc
    unfold New
    rcases hic : b.initCompressor env w with ⟨e, b1, w1⟩
    rw [hic] at hc
    simp only at hc
    subst hc
    simp only [hopts, hic]
  have hbuck : ∀ (b : bs σ ρ) (err : Error),
      applyOptions (env.defaultOptions ++ opts) (bs.zero σ ρ) = Except.ok b →
      (b.initCompressor env w).1 = none →
      ((b.initCompressor env w).2.1.initBucket env (b.initCompressor env w).2.2).1
        = some err →
      New env opts w = (Except.error err,
        ((b.initCompressor env w).2.1.initBucket env (b.initCompressor env w).2.2).2.2) := by
    intro b err hopts hc hbk
    unfold New
    rcases hic : b.initCompressor env w with ⟨e, b1, w1⟩
    rw [hic] at hc hbk
    simp only at hc hbk
    subst hc
    rcases hib : b1.initBucket env w1 with ⟨e2, b2, w2⟩
    rw [hib] at hbk
    simp only at hbk
    subst hbk
    simp only [hopts, hic, hib]
  have hok : ∀ b : bs σ ρ,
      applyOptions (env.defaultOptions ++ opts) (bs.zero σ ρ) = Except.ok b →
      (b.initCompressor env w).1 = none →
      ((b.initCompressor env w).2.1.initBucket env (b.initCompressor env w).2.2).1
        = none →
      New env opts w = (Except.ok
          ((b.initCompressor env w).2.1.initBucket env (b.initCompressor env w).2.2).2.1,
        ((b.initCompressor env w).2.1.initBucket env (b.initCompressor env w).2.2).2.2) := by
    intro b hopts hc hbk
    unfold New
    rcases hic : b.initCompressor env w with ⟨e, b1, w1⟩
    rw [hic] at hc hbk
    simp only at hc hbk
    subst hc
    rcases hib : b1.initBucket env w1 with ⟨e2, b2, w2⟩
    rw [hib] at hbk
    simp only at hbk
    subst hbk
    simp only [hopts, hic, hib]
  refine ⟨?_, ?_, ?_, hbuck, ?_, ?_, ?_⟩
  · intro err hopts
    unfold New
    simp only [hopts]
  · intro pre post opt b0 b1 b2 err hpre hopt
    rw [applyOptions_append, hpre]
    simp only [applyOptions, hopt]
  · intro b err hopts hc
    refine ⟨hcomp b err hopts hc, ?_⟩
    obtain ⟨l, hl, hcodec⟩ := initCompressor_log env b w
    refine ⟨l, by rw [hcomp b err hopts hc]; exact hl, ?_, ?_⟩
    · intro hmem
      have := hcodec _ hmem
      simp [Call.isCodec] at this
    · intro hmem
      have := hcodec _ hmem
      simp [Call.isCodec] at this
  · intro b hopts hc hbk
    exact ⟨hok b hopts hc hbk, initBucket_ok_bucket env _ _ hbk⟩
  · constructor
    · rintro ⟨s, hs⟩
      cases hopts : applyOptions (env.defaultOptions ++ opts) (bs.zero σ ρ) with
      | error err =>
        unfold New at hs
        simp [hopts] at hs
      | ok b =>
        refine ⟨b, rfl, ?_⟩
        cases hc : (b.initCompressor env w).1 with
        | some err =>
          rw [hcomp b err hopts hc] at hs
          simp at hs
        | none =>
          refine ⟨rfl, ?_⟩
          cases hbk : ((b.initCompressor env w).2.1.initBucket env
              (b.initCompressor env w).2.2).1 with
          | some err =>
            rw [hbuck b err hopts hc hbk] at hs
            simp at hs
          | none => rfl
    · rintro ⟨b, hopts, hc, hbk⟩
      exact ⟨_, by rw [hok b hopts hc hbk]⟩
  · intro b hopts h0 h1 h2 h3 h4 _
    unfold New
    have hic : b.initCompressor env w =
        (some (Error.ErrCompressorNameNotFound b.compressAlgorithm), b, w) := by
      unfold bs.initCompressor
      rw [if_neg h0, if_neg h1, if_neg h2, if_neg h3, if_neg h4]
    simp only [hopts, hic]

/-- C5 at a concrete input: the algorithm `brotli` and the storage type `gcs`
are both unknown, and the compressor error is the one reported. -/
theorem New_order_witness :
    applyOptions (memEnv.defaultOptions ++
        [withStorageType "gcs", withCompressAlgorithm "brotli"]) (bs.zero Store Bytes) =
      Except.ok { bs.zero Store Bytes with storageType := "gcs", compressAlgorithm := "brotli" } ∧
    "brotli" ≠ "" ∧ memEnv.CompressAlgorithm "brotli" ≠ GOB ∧
    memEnv.CompressAlgorithm "brotli" ≠ GZIP ∧ memEnv.CompressAlgorithm "brotli" ≠ LZ4 ∧
    memEnv.CompressAlgorithm "brotli" ≠ ZSTD ∧ memEnv.AtoBST "gcs" ≠ S3 ∧
    New memEnv [withStorageType "gcs", withCompressAlgorithm "brotli"] (memWorld []) =
      (Except.error (Error.ErrCompressorNameNotFound "brotli"), memWorld []) :=
  ⟨rfl, by decide, by decide, by decide, by decide, by decide, by decide,
    (New_order memEnv [withStorageType "gcs", withCompressAlgorithm "brotli"]
      (memWorld [])).2.2.2.2.2.2
      { bs.zero Store Bytes with storageType := "gcs", compressAlgorithm := "brotli" }
      rfl (by decide) (by decide) (by decide) (by decide) (by decide) (by decide)⟩

/-- C2, as the code has it: two `Backup` calls in sequence that read different
clock values `t1` and `t2` copy to two distinct keys (two snapshot keys of one
service are equal exactly when their timestamps are); no snapshot key is the
canonical key `filename ++ suffix`; the two calls issue nothing but `Copier`
and `Copy` from the canonical key to their snapshot key, so no delete and no
write onto the canonical key; and on the bucket in memory the canonical object
is after the two calls what it was before, with both snapshots holding its
bytes when it exists. -/
theorem Backup_twice_distinct_keys {σ ρ : Type} (b : bs σ ρ) (t1 t2 : Int)
    (w : World σ) (m : World Store) (h : t1 ≠ t2) :
    b.filename ++ "_" ++ FormatInt t1 10 ++ b.suffix ≠
      b.filename ++ "_" ++ FormatInt t2 10 ++ b.suffix ∧
    (∀ u1 u2 : Int, b.filename ++ "_" ++ FormatInt u1 10 ++ b.suffix =
      b.filename ++ "_" ++ FormatInt u2 10 ++ b.suffix ↔ u1 = u2) ∧
    (∀ u : Int, b.filename ++ "_" ++ FormatInt u 10 ++ b.suffix ≠ b.filename ++ b.suffix) ∧
    (∀ (r1 r2 : Option Error) (w1 w2 : World σ),
      b.Backup t1 w = some (r1, w1) → b.Backup t2 w1 = some (r2, w2) →
      ∃ l : List Call, w2.log = w.log ++ l ∧
        ∀ c ∈ l, c = Call.bucketCopier ∨
          c = Call.copierCopy (b.filename ++ b.suffix)
            (b.filename ++ "_" ++ FormatInt t1 10 ++ b.suffix) ∨
          c = Call.copierCopy (b.filename ++ b.suffix)
            (b.filename ++ "_" ++ FormatInt t2 10 ++ b.suffix)) ∧
    (∃ (r1 r2 : Option Error) (w1 w2 : World Store),
      (memService b.filename b.suffix).Backup t1 m = some (r1, w1) ∧
      (memService b.filename b.suffix).Backup t2 w1 = some (r2, w2) ∧
      w2.st.get (b.filename ++ b.suffix) = m.st.get (b.filename ++ b.suffix) ∧
      ∀ x : Bytes, m.st.get (b.filename ++ b.suffix) = some x →
        r1 = none ∧ r2 = none ∧
        w2.st.get (b.filename ++ "_" ++ FormatInt t1 10 ++ b.suffix) = some x ∧
        w2.st.get (b.filename ++ "_" ++ FormatInt t2 10 ++ b.suffix) = some x) := by
  have hinj : ∀ u1 u2 : Int, b.filename ++ "_" ++ FormatInt u1 10 ++ b.suffix =
      b.filename ++ "_" ++ FormatInt u2 10 ++ b.suffix ↔ u1 = u2 := by
    intro u1 u2
    constructor
    · intro he
      exact FormatInt_injective u1 u2 (key_cancel _ _ _ _ he)
    · intro he
      rw [he]
  have hne : ∀ u : Int,
      b.filename ++ "_" ++ FormatInt u 10 ++ b.suffix ≠ b.filename ++ b.suffix :=
    fun u => key_ne _ _ _
  refine ⟨fun he => h ((hinj t1 t2).mp he), hinj, hne, ?_, ?_⟩
  · intro r1 r2 w1 w2 h1 h2
    obtain ⟨l1, hl1, hc1⟩ := Backup_log b t1 w w1 r1 h1
    obtain ⟨l2, hl2, hc2⟩ := Backup_log b t2 w1 w2 r2 h2
    refine ⟨l1 ++ l2, by rw [hl2, hl1, List.append_assoc], ?_⟩
    intro c hc
    rcases List.mem_append.mp hc with hc | hc
    · rcases hc1 c hc with h | h
      · exact Or.inl h
      · exact Or.inr (Or.inl h)
    · rcases hc2 c hc with h | h
      · exact Or.inl h
      · exact Or.inr (Or.inr h)
  · cases hx : m.st.get (b.filename ++ b.suffix) with
    | none =>
      refine ⟨_, _, _, _, memService_Backup_none _ _ t1 m hx,
        memService_Backup_none _ _ t2 _ hx, hx, ?_⟩
      intro x hx2
      simp at hx2
    | some x =>
      have hk1 : (m.st.put (b.filename ++ "_" ++ FormatInt t1 10 ++ b.suffix) x).get
          (b.filename ++ b.suffix) = some x := by
        rw [Store.get_put_ne _ _ _ _ (hne t1).symm, hx]
      refine ⟨_, _, _, _, memService_Backup_some _ _ t1 m x hx,
        memService_Backup_some _ _ t2 _ x hk1, ?_, ?_⟩
      · simp only
        rw [Store.get_put_ne _ _ _ _ (hne t2).symm, hk1]
      · intro y hy
        simp only [Option.some.injEq] at hy
        subst hy
        refine ⟨rfl, rfl, ?_, ?_⟩
        · simp only
          rw [Store.get_put_ne _ _ _ _ (fun he => h ((hinj t1 t2).mp he)),
            Store.get_put_self]
        · simp only
          rw [Store.get_put_self]

/-- C2 at a concrete input: two clock readings one nanosecond apart. -/
theorem Backup_twice_distinct_keys_witness :
    (1700000000000000000 : Int) ≠ 1700000000000000001 ∧
    "index" ++ "_" ++ FormatInt 1700000000000000000 10 ++ ".snap" ≠
      "index" ++ "_" ++ FormatInt 1700000000000000001 10 ++ ".snap" :=
  ⟨by decide, (Backup_twice_distinct_keys (memService "index" ".snap")
    1700000000000000000 1700000000000000001
    (memWorld [1, 2]) (memWorld [1, 2]) (by decide)).1⟩

/-- C2 as stated fails when the clock gives the same value to both calls: at
time 1700000000000000000 twice, both `Backup` calls succeed and copy
`index.snap` to the one key `index_1700000000000000000.snap`, and the bucket
holds a single snapshot afterwards. -/
theorem Backup_twice_same_clock :
    (memService "index" ".snap").Backup 1700000000000000000 (memWorld [1, 2]) =
      some (none,
        { st := [("index_1700000000000000000.snap", [1, 2]), ("index.snap", [1, 2])],
          log := [Call.bucketCopier,
            Call.copierCopy "index.snap" "index_1700000000000000000.snap"] }) ∧
    (memService "index" ".snap").Backup 1700000000000000000
        { st := [("index_1700000000000000000.snap", [1, 2]), ("index.snap", [1, 2])],
          log := [Call.bucketCopier,
            Call.copierCopy "index.snap" "index_1700000000000000000.snap"] } =
      some (none,
        { st := [("index_1700000000000000000.snap", [1, 2]), ("index.snap", [1, 2])],
          log := [Call.bucketCopier,
            Call.copierCopy "index.snap" "index_1700000000000000000.snap",
            Call.bucketCopier,
            Call.copierCopy "index.snap" "index_1700000000000000000.snap"] }) := by
  constructor <;> rfl

/-- C9: over the bucket in memory, for every byte string `x` and every clock
value `ts`, a service with filename `index`, suffix `.snap` and no compressor,
started on a bucket where `index.snap` holds `x`, goes through the scenario:
`Backup` succeeds, after it `index_<ts>.snap` holds `x` and `index.snap` still
holds `x`; `Reader` yields `x`; `Delete` succeeds and removes `index.snap`;
the next `Reader` returns the not-found error. -/
theorem end_to_end_scenario (b : bs Store Bytes) (x : Bytes) (ts : Int) (w0 : World Store)
    (hf : b.filename = "index") (hs : b.suffix = ".snap") (hc : b.compressor = none)
    (hb : b.bucket = some memBucket) (hx : w0.st.get "index.snap" = some x) :
    ∃ w1 w2 w3 w4 : World Store,
      b.Backup ts w0 = some (none, w1) ∧
      w1.st.get ("index" ++ "_" ++ FormatInt ts 10 ++ ".snap") = some x ∧
      w1.st.get "index.snap" = some x ∧
      b.Reader w1 = some (Except.ok x, w2) ∧
      b.Delete w2 = some (none, w3) ∧
      w3.st.get "index.snap" = none ∧
      b.Reader w3 = some (Except.error errNotFound, w4) := by
  have hkey : ("index" : String) ++ ".snap" = "index.snap" := by decide
  have hne : "index.snap" ≠ "index" ++ "_" ++ FormatInt ts 10 ++ ".snap" := by
    rw [← hkey]
    exact (key_ne _ _ _).symm
  have h1 : (w0.st.put ("index" ++ "_" ++ FormatInt ts 10 ++ ".snap") x).get "index.snap"
      = some x := by
    rw [Store.get_put_ne _ _ _ _ hne, hx]
  refine ⟨{ st := w0.st.put ("index" ++ "_" ++ FormatInt ts 10 ++ ".snap") x,
            log := w0.log ++ [Call.bucketCopier,
              Call.copierCopy "index.snap" ("index" ++ "_" ++ FormatInt ts 10 ++ ".snap")] },
          { st := w0.st.put ("index" ++ "_" ++ FormatInt ts 10 ++ ".snap") x,
            log := w0.log ++ [Call.bucketCopier,
              Call.copierCopy "index.snap" ("index" ++ "_" ++ FormatInt ts 10 ++ ".snap")]
              ++ [Call.bucketReader "index.snap"] },
          { st := (w0.st.put ("index" ++ "_" ++ FormatInt ts 10 ++ ".snap") x).remove
              "index.snap",
            log := w0.log ++ [Call.bucketCopier,
              Call.copierCopy "index.snap" ("index" ++ "_" ++ FormatInt ts 10 ++ ".snap")]
              ++ [Call.bucketReader "index.snap"]
              ++ [Call.bucketDeleter, Call.deleterDelete "index.snap"] },
          { st := (w0.st.put ("index" ++ "_" ++ FormatInt ts 10 ++ ".snap") x).remove
              "index.snap",
            log := w0.log ++ [Call.bucketCopier,
              Call.copierCopy "index.snap" ("index" ++ "_" ++ FormatInt ts 10 ++ ".snap")]
              ++ [Call.bucketReader "index.snap"]
              ++ [Call.bucketDeleter, Call.deleterDelete "index.snap"]
              ++ [Call.bucketReader "index.snap"] }, ?_, ?_, ?_, ?_, ?_, ?_, ?_⟩
  · unfold bs.Backup
    simp only [hb, hf, hs, hkey, invoke, memBucket, memCopier, hx, List.append_assoc,
      List.singleton_append]
  · exact Store.get_put_self _ _ _
  · exact h1
  · unfold bs.Reader
    simp only [hb, hf, hs, hkey, hc, invoke, memBucket, h1]
  · unfold bs.Delete
    simp only [hb, hf, hs, hkey, invoke, memBucket, memDeleter, List.append_assoc,
      List.singleton_append, List.cons_append, List.nil_append]
  · exact Store.get_remove_self _ _
  · unfold bs.Reader
    simp only [hb, hf, hs, hkey, invoke, memBucket, Store.get_remove_self]

/-- C9 at a concrete input: the bytes 1, 2 and the time 5. -/
theorem end_to_end_scenario_witness :
    (memService "index" ".snap").filename = "index" ∧
    (memService "index" ".snap").suffix = ".snap" ∧
    (memService "index" ".snap").compressor = none ∧
    (memService "index" ".snap").bucket = some memBucket ∧
    (memWorld [1, 2]).st.get "index.snap" = some [1, 2] ∧
    ∃ w1 w2 w3 w4 : World Store,
      (memService "index" ".snap").Backup 5 (memWorld [1, 2]) = some (none, w1) ∧
      w1.st.get ("index" ++ "_" ++ FormatInt 5 10 ++ ".snap") = some [1, 2] ∧
      w1.st.get "index.snap" = some [1, 2] ∧
      (memService "index" ".snap").Reader w1 = some (Except.ok [1, 2], w2) ∧
      (memService "index" ".snap").Delete w2 = some (none, w3) ∧
      w3.st.get "index.snap" = none ∧
      (memService "index" ".snap").Reader w3 = some (Except.error errNotFound, w4) :=
  ⟨rfl, rfl, rfl, rfl, rfl,
    end_to_end_scenario (memService "index" ".snap") [1, 2] 5 (memWorld [1, 2])
      rfl rfl rfl rfl rfl⟩

/-- C10: `Bind` returns the configuration with `Host` replaced by
`GetActualValue` of it and `Port` unchanged; its client is never nil: it is the
bound existing client, or the fresh default when none was given, with the
addresses of that client followed by exactly one more entry, the host, a colon
and the port in decimal, when the resolved host is non-empty, and with the
addresses of that client and nothing more when the resolved host is empty. -/
theorem Bind_spec {γ : Type} (cfg : ConfigEnv γ) (b : BackupManager γ) :
    (b.Bind cfg).Host = cfg.GetActualValue b.Host ∧
    (b.Bind cfg).Port = b.Port ∧
    (∀ c : GRPCClient γ, b.Client = some c → b.boundClient cfg = cfg.clientBind c) ∧
    (b.Client = none → b.boundClient cfg = cfg.newGRPCClientConfig) ∧
    (∃ client : GRPCClient γ, (b.Bind cfg).Client = some client ∧
      client.rest = (b.boundClient cfg).rest ∧
      (cfg.GetActualValue b.Host ≠ "" →
        client.Addrs = (b.boundClient cfg).Addrs ++
          [cfg.GetActualValue b.Host ++ ":" ++ FormatInt b.Port 10]) ∧
      (cfg.GetActualValue b.Host = "" → client.Addrs = (b.boundClient cfg).Addrs)) := by
  refine ⟨?_, ?_, ?_, ?_, ?_⟩
  · unfold BackupManager.Bind
    simp only
    split_ifs <;> rfl
  · unfold BackupManager.Bind
    simp only
    split_ifs <;> rfl
  · intro c hc
    simp [BackupManager.boundClient, hc]
  · intro hc
    simp [BackupManager.boundClient, hc]
  · by_cases hh : cfg.GetActualValue b.Host = ""
    · have hl : ¬ (cfg.GetActualValue b.Host).length ≠ 0 := by
        rw [hh]; decide
      refine ⟨b.boundClient cfg, ?_, rfl, fun hne => absurd hh hne, fun _ => rfl⟩
      unfold BackupManager.Bind
      simp only [if_neg hl]
      rfl
    · have hl : (cfg.GetActualValue b.Host).length ≠ 0 := by
        intro h0
        exact hh ((length_eq_zero_iff _).mp h0)
      refine ⟨{ b.boundClient cfg with
          Addrs := (b.boundClient cfg).Addrs ++
            [sprintfHostPort (cfg.GetActualValue b.Host) b.Port] }, ?_, rfl,
        fun _ => rfl, fun he => absurd he hh⟩
      unfold BackupManager.Bind
      simp only [if_pos hl]
      rfl

/-- C10 at a concrete input: the host `$HOST` resolves to `vald.local`, no
client was given, the port is 6379. -/
theorem Bind_spec_witness :
    ((BackupManager.Bind demoConfig
        { Host := "$HOST", Port := 6379, Client := none }).Client.map
      (fun c => c.Addrs)) = some ["vald.local:6379"] := by
  obtain ⟨client, hclient, _, hadd, _⟩ :=
    (Bind_spec demoConfig { Host := "$HOST", Port := 6379, Client := none }).2.2.2.2
  rw [hclient, Option.map_some', hadd (by decide)]
  decide

end Vald
